import Mathlib

/-!
Shallow embedding of the TradeTrail session/trading core (`src/helpers.py`)
and proofs about its specified behaviour.

Modelling conventions:
* Python strings are `List Char`; `pystr` converts a Lean string literal.
* Python `float` values are modelled as exact rationals (`ℚ`); the string
  coercion `float(...)` is modelled on the decimal-numeral fragment
  (optional sign, digits, one optional dot) that the order protocol uses.
* Python exceptions are modelled with `Option`/explicit result types: a
  function that the source wraps in `try/except` is total here, returning
  the state the handler leaves behind.
* Python `dict` registries are association lists with first-match lookup.
-/

namespace TradeTrail

/-- Python string as a list of characters. -/
abbrev PyStr := List Char

/-- Convert a Lean string literal to the `List Char` model of a Python string. -/
def pystr (s : String) : PyStr := s.data

/-- `startsWith s pat`: `pat` is a prefix of `s`. -/
def startsWith : PyStr → PyStr → Bool
  | _, [] => true
  | [], _ :: _ => false
  | c :: s, p :: ps => c == p && startsWith s ps

/-- `findSub s pat`: index of the first occurrence of `pat` as a contiguous
substring of `s` (Python `str.find` success cases), `none` when absent. -/
def findSub : PyStr → PyStr → Option Nat
  | [], pat => if pat.isEmpty then some 0 else none
  | c :: rest, pat =>
      if startsWith (c :: rest) pat then some 0
      else (findSub rest pat).map (· + 1)

/-- Python `str.find`: first index of the substring, `-1` when absent. -/
def pyFind (s pat : PyStr) : Int :=
  match findSub s pat with
  | some n => (n : Int)
  | none => -1

/-- Python slice `s[:i]`, including the negative-index convention:
`s[:-k]` drops the last `k` characters (clamped at the empty string). -/
def pySliceTo (s : PyStr) (i : Int) : PyStr :=
  if 0 ≤ i then s.take i.toNat
  else s.take (s.length - i.natAbs)

/-- ASCII whitespace stripped by Python `str.strip()`. -/
def isPySpace (c : Char) : Bool :=
  c == ' ' || c == '\t' || c == '\n' || c == '\r' || c == '\x0b' || c == '\x0c'

/-- Python `str.strip()`: remove leading and trailing whitespace. -/
def pyStrip (s : PyStr) : PyStr :=
  ((s.dropWhile isPySpace).reverse.dropWhile isPySpace).reverse

/-- `DictParser._parse` (`helpers.py:90-114`): locate `key + ":"` by
`str.find`, take the remainder after the colon, cut at the first comma via
`rem[:rem.find(",")]` — note that when no comma is present `find` returns
`-1` and the slice drops the final character — then `strip` the result. -/
def DictParser.parseField (key s : PyStr) : Option PyStr :=
  match findSub s (key ++ [':']) with
  | none => none
  | some idx =>
      let rem := s.drop (idx + key.length + 1)
      let idx2 := pyFind rem [',']
      some (pyStrip (pySliceTo rem idx2))

/-- Split a character list at every occurrence of `sep`. -/
def splitOnChar (sep : Char) : PyStr → List PyStr
  | [] => [[]]
  | c :: rest =>
      let r := splitOnChar sep rest
      if c == sep then [] :: r
      else
        match r with
        | [] => [[c]]
        | h :: t => (c :: h) :: t

/-- Numeric value of a digit string, most significant digit first. -/
def digitsToNat (l : PyStr) : Nat :=
  l.foldl (fun a c => 10 * a + (c.toNat - 48)) 0

/-- Unsigned decimal numeral: `digits`, `digits.`, `.digits` or
`digits.digits`. -/
def pyFloatCore (s : PyStr) : Option ℚ :=
  match splitOnChar '.' s with
  | [a] =>
      if !a.isEmpty && a.all Char.isDigit then some (mkRat (digitsToNat a) 1)
      else none
  | [a, b] =>
      if (!a.isEmpty || !b.isEmpty) && a.all Char.isDigit && b.all Char.isDigit
      then some (mkRat (digitsToNat a * 10 ^ b.length + digitsToNat b) (10 ^ b.length))
      else none
  | _ => none

/-- Python `float(string)` on the decimal-numeral fragment used by the order
protocol: strip whitespace, optional sign, then an unsigned decimal numeral.
Inputs outside this fragment (exponents, `inf`, `nan`) do not occur in the
order messages considered and are mapped to `none` (a coercion failure). -/
def pyFloat (s : PyStr) : Option ℚ :=
  match pyStrip s with
  | '+' :: rest => pyFloatCore rest
  | '-' :: rest => (pyFloatCore rest).map Neg.neg
  | t => pyFloatCore t

/-- `Transaction` (`helpers.py:116-160`): side, share quantity, price. -/
structure Transaction where
  transaction_type : PyStr
  shares : ℚ
  price : ℚ
deriving DecidableEq, Repr

/-- `Transaction.from_string` (`helpers.py:162-179`) composed with
`DictParser.__call__` and `Transaction.from_dict`: each of the three target
fields is parsed independently from the message; a missing key (absent from
the dict, so `from_dict` raises `KeyError`) or a failing numeric coercion
(`float` raises `ValueError` inside `__call__`) makes the whole construction
raise, modelled as `none`. -/
def Transaction.from_string (s : PyStr) : Option Transaction := do
  let ty ← DictParser.parseField (pystr "type") s
  let shS ← DictParser.parseField (pystr "shares") s
  let prS ← DictParser.parseField (pystr "price") s
  let sh ← pyFloat shS
  let pr ← pyFloat prS
  pure ⟨ty, sh, pr⟩

/-- `ParticipantSession` (`helpers.py:293-338`): the per-participant ledger. -/
structure ParticipantSession where
  starting_balance : ℚ
  is_agent : Bool
  num_trades : Nat
  available_shares : ℚ
  balance : ℚ
deriving DecidableEq, Repr

/-- Construction with `__post_init__` (`helpers.py:340-341`): `num_trades`
and `available_shares` start at their defaults and `balance` is set to the
starting balance. -/
def ParticipantSession.init (starting_balance : ℚ) (is_agent : Bool) :
    ParticipantSession :=
  ⟨starting_balance, is_agent, 0, 0, starting_balance⟩

/-- `ParticipantSession.handle_message` (`helpers.py:343-372`): parse the
text; on success count the trade and apply it (`"buy"` debits the balance
and adds shares, any other side credits the balance and removes shares); any
exception raised while parsing is caught by the surrounding
`try/except`, leaving the ledger unchanged and the read loop alive. -/
def ParticipantSession.handle_message (ps : ParticipantSession) (text : PyStr) :
    ParticipantSession :=
  match Transaction.from_string text with
  | none => ps
  | some t =>
      let ps1 := { ps with num_trades := ps.num_trades + 1 }
      if t.transaction_type = pystr "buy" then
        { ps1 with
            balance := ps1.balance - t.shares * t.price
            available_shares := ps1.available_shares + t.shares }
      else
        { ps1 with
            balance := ps1.balance + t.shares * t.price
            available_shares := ps1.available_shares - t.shares }

/-- `Session` (`helpers.py:224-291`). Connections (`WebSocket` objects) are
modelled as opaque numeric handles; `clients` is the ordered roster of
`(connection, client_id)` pairs. -/
structure Session where
  id : Int
  symbol : PyStr
  starting_balance : ℚ
  max_clients : Int
  duration : Int
  against_server : Bool
  clients : List (Nat × Int)
deriving DecidableEq, Repr

/-- `Session.add_client` (`helpers.py:272-291`): reject exactly when the
roster length equals `max_clients`, otherwise append the pair; returns the
updated session together with the boolean result. -/
def Session.add_client (s : Session) (client : Nat) (client_id : Int) :
    Session × Bool :=
  if (s.clients.length : Int) = s.max_clients then (s, false)
  else ({ s with clients := s.clients ++ [(client, client_id)] }, true)

/-- A sequence of admission attempts applied in order through
`Session.add_client` (failed attempts leave the session as it was). -/
def Session.applyAdmissions (s : Session) (adds : List (Nat × Int)) : Session :=
  adds.foldl (fun acc a => (acc.add_client a.1 a.2).1) s

/-- `SessionsManager.ids` (`helpers.py:462`): the `dict` mapping session ids
to sessions, modelled as an association list in insertion order with
first-match lookup. -/
abbrev Registry := List (Int × Session)

/-- Python `self.ids[id]` lookup on the success path; `none` is the
`KeyError` case. -/
def lookupSession (m : Registry) (id : Int) : Option Session :=
  (m.find? (fun p => p.1 == id)).map Prod.snd

/-- Number of entries registered under `id`. -/
def countKey (m : Registry) (id : Int) : Nat :=
  m.countP (fun p => p.1 == id)

/-- Replace the session stored under `id` (Python mutates the `Session`
object in place; the registry entry observes the mutation). -/
def updateSession (m : Registry) (id : Int) (s : Session) : Registry :=
  m.map (fun p => if p.1 == id then (id, s) else p)

/-- `SessionsManager.add_session` (`helpers.py:532-540`): insert only when
the id is not yet registered; an already-registered id is left untouched. -/
def SessionsManager.add_session (m : Registry) (s : Session) : Registry :=
  match lookupSession m s.id with
  | some _ => m
  | none => m ++ [(s.id, s)]

/-- The failure surfaced by `SessionsManager.add_client` when the session id
is not registered (`self.ids[session_id]` raises `KeyError`). -/
inductive JoinError where
  | unknownSession
deriving DecidableEq, Repr

/-- `SessionsManager.add_client` (`helpers.py:518-530`): look the session up
by id — a missing id raises (`KeyError`, the `UnknownSession` failure),
surfaced synchronously and leaving the registry untouched — and otherwise
delegate to `Session.add_client`, whose roster mutation is reflected back
into the registry. -/
def SessionsManager.add_client (m : Registry) (client : Nat)
    (session_id client_id : Int) : Registry × Except JoinError Bool :=
  match lookupSession m session_id with
  | none => (m, .error .unknownSession)
  | some s =>
      let r := s.add_client client client_id
      (updateSession m session_id r.1, .ok r.2)

/-- The two classes of exceptions a send can raise that
`ClientManager.broadcast` distinguishes: `RuntimeError` (silently passed)
and any other `Exception` (printed). -/
inductive PyExn where
  | runtimeError
  | otherError
deriving DecidableEq, Repr

/-- Result of running a block of Python code: normal completion or an
exception escaping it. -/
inductive PyResult (α : Type) where
  | ok (a : α)
  | raised (e : PyExn)
deriving DecidableEq, Repr

/-- One iteration of the `ClientManager.broadcast` loop body
(`helpers.py:443-450`): try `send_text` then `send_bytes`; an exception
raised by either send aborts the block, `except RuntimeError` swallows it
and `except Exception` prints it — so every modelled exception is caught and
the iteration completes, recording whether both sends succeeded. -/
def ClientManager.handleClient (c : Nat × Int)
    (sendText sendBytes : Nat → Option PyExn) : PyResult (Nat × Bool) :=
  let body : PyResult Bool :=
    match sendText c.1 with
    | some e => .raised e
    | none =>
        match sendBytes c.1 with
        | some e => .raised e
        | none => .ok true
  match body with
  | .ok _ => .ok (c.1, true)
  | .raised .runtimeError => .ok (c.1, false)
  | .raised .otherError => .ok (c.1, false)

/-- `ClientManager.broadcast` (`helpers.py:421-450`): iterate over the
roster in order, running the per-client try/except block; an exception
escaping one iteration (which the except clauses in fact prevent) would
abort the remaining iterations. The send oracles give, per connection
handle, the exception each send would raise (`none` = success). -/
def ClientManager.broadcast (clients : List (Nat × Int))
    (sendText sendBytes : Nat → Option PyExn) : PyResult (List (Nat × Bool)) :=
  match clients with
  | [] => .ok []
  | c :: rest =>
      match ClientManager.handleClient c sendText sendBytes with
      | .raised e => .raised e
      | .ok a =>
          match ClientManager.broadcast rest sendText sendBytes with
          | .ok tr => .ok (a :: tr)
          | .raised e => .raised e

/-! ## Theorems -/

/-- C1: the claim states that parsing `"type:buy,shares:2,price:10.5"`
yields price 10.5 and that a value not followed by a comma is read to the
end of the string. The code instead evaluates `rem[:rem.find(",")]` with
`find` returning `-1`, which drops the final character: the price field is
read as `"10."` and coerced to 10.0. This theorem evaluates the parser at
that input, exhibiting side `"buy"`, shares 2 and price 10 (not 10.5). -/
theorem C1_final_value_loses_last_char :
    Transaction.from_string (pystr "type:buy,shares:2,price:10.5")
      = some ⟨pystr "buy", 2, 10⟩ := by decide

/-- C3: a message on which order construction fails (required key missing
or a value that cannot be coerced, i.e. `Transaction.from_string` raises,
modelled as `none`) leaves the participant ledger completely unchanged; the
surrounding `try/except` catches the exception, so the handler returns
normally and the read loop continues. -/
theorem C3_malformed_message_leaves_ledger_unchanged
    (ps : ParticipantSession) (text : PyStr)
    (h : Transaction.from_string text = none) :
    ps.handle_message text = ps := by
  simp [ParticipantSession.handle_message, h]

theorem C3_witness :
    Transaction.from_string (pystr "shares:2,price:10") = none ∧
      (ParticipantSession.init 1000 false).handle_message (pystr "shares:2,price:10")
        = ParticipantSession.init 1000 false :=
  ⟨by decide, C3_malformed_message_leaves_ledger_unchanged _ _ (by decide)⟩

/-- `ClientManager.handleClient` always completes normally: both except
clauses catch the exception a send raises, so each iteration records its
connection handle and whether delivery succeeded. -/
theorem ClientManager.handleClient_ok (c : Nat × Int)
    (sendText sendBytes : Nat → Option PyExn) :
    ∃ b, ClientManager.handleClient c sendText sendBytes = .ok (c.1, b) := by
  unfold ClientManager.handleClient
  cases hst : sendText c.1 with
  | some e => cases e <;> exact ⟨false, rfl⟩
  | none =>
      cases hsb : sendBytes c.1 with
      | some e => cases e <;> exact ⟨false, rfl⟩
      | none => exact ⟨true, rfl⟩

/-- C8: for every roster and every pattern of per-connection send failures,
one broadcast attempts delivery to every connection in roster order — it
completes normally (no exception propagates out of the loop) and the trace
of attempted connections is exactly the roster's connection list, a failure
at one connection notwithstanding. -/
theorem C8_broadcast_attempts_every_connection (clients : List (Nat × Int))
    (sendText sendBytes : Nat → Option PyExn) :
    ∃ trace, ClientManager.broadcast clients sendText sendBytes = .ok trace ∧
      trace.map Prod.fst = clients.map Prod.fst := by
  induction clients with
  | nil => exact ⟨[], rfl, rfl⟩
  | cons c rest ih =>
      obtain ⟨b, hc⟩ := ClientManager.handleClient_ok c sendText sendBytes
      obtain ⟨tr, hb, hm⟩ := ih
      refine ⟨(c.1, b) :: tr, ?_, ?_⟩
      · simp [ClientManager.broadcast, hc, hb]
      · simp [hm]

/-- C9: admitting through the registry with a session id that is not
registered fails synchronously with the unknown-session error (the
`KeyError` raised by `self.ids[session_id]`), and the registry — hence
every session's roster — is left unchanged. -/
theorem C9_unknown_session_add_client (m : Registry) (client : Nat)
    (session_id client_id : Int)
    (h : lookupSession m session_id = none) :
    SessionsManager.add_client m client session_id client_id
      = (m, Except.error JoinError.unknownSession) := by
  simp [SessionsManager.add_client, h]

theorem C9_witness :
    lookupSession [] 3 = none ∧
      SessionsManager.add_client [] 0 3 7 = ([], Except.error JoinError.unknownSession) :=
  ⟨rfl, C9_unknown_session_add_client [] 0 3 7 rfl⟩

/-- C10: any successfully parsed order whose side is any string other than
`"buy"` — `"hold"`, a misspelling, anything — falls into the `else` branch
and is applied as a sell: the balance grows by `shares * price`, the held
shares shrink by `shares`, and the trade count still increments. -/
theorem C10_non_buy_applied_as_sell (ps : ParticipantSession) (text : PyStr)
    (t : Transaction)
    (hp : Transaction.from_string text = some t)
    (hn : t.transaction_type ≠ pystr "buy") :
    ps.handle_message text =
      { ps with
          num_trades := ps.num_trades + 1
          balance := ps.balance + t.shares * t.price
          available_shares := ps.available_shares - t.shares } := by
  simp [ParticipantSession.handle_message, hp, hn]

theorem C10_witness :
    (ParticipantSession.init 1000 false).handle_message
        (pystr "type:hold,shares:2,price:10,")
      = { ParticipantSession.init 1000 false with
            num_trades := (ParticipantSession.init 1000 false).num_trades + 1
            balance := (ParticipantSession.init 1000 false).balance + (2 : ℚ) * 10
            available_shares :=
              (ParticipantSession.init 1000 false).available_shares - 2 } :=
  C10_non_buy_applied_as_sell _ _ ⟨pystr "hold", 2, 10⟩ (by decide) (by decide)

/-- C2: on a fresh ledger with starting balance `B`, a parsed buy of `s`
shares at price `p` leaves balance `B - s*p` and `s` held shares; a
subsequent parsed sell of `s` shares at price `p2` leaves balance
`B - s*p + s*p2` and no held shares; and the trade count increments by
exactly one on each of the two successfully parsed orders. -/
theorem C2_buy_then_sell (B s p p2 : ℚ) (agent : Bool) (t1 t2 : PyStr)
    (h1 : Transaction.from_string t1 = some ⟨pystr "buy", s, p⟩)
    (h2 : Transaction.from_string t2 = some ⟨pystr "sell", s, p2⟩) :
    ((ParticipantSession.init B agent).handle_message t1).balance = B - s * p
  ∧ ((ParticipantSession.init B agent).handle_message t1).available_shares = s
  ∧ ((ParticipantSession.init B agent).handle_message t1).num_trades = 1
  ∧ (((ParticipantSession.init B agent).handle_message t1).handle_message t2).balance
      = B - s * p + s * p2
  ∧ (((ParticipantSession.init B agent).handle_message t1).handle_message
        t2).available_shares = 0
  ∧ (((ParticipantSession.init B agent).handle_message t1).handle_message
        t2).num_trades = 2 := by
  have hne : pystr "sell" ≠ pystr "buy" := by decide
  simp [ParticipantSession.handle_message, h1, h2, ParticipantSession.init, hne]

theorem C2_witness :
    ((ParticipantSession.init 1000 false).handle_message
        (pystr "type:buy,shares:2,price:10.5,")).balance = 1000 - 2 * mkRat 21 2
  ∧ ((ParticipantSession.init 1000 false).handle_message
        (pystr "type:buy,shares:2,price:10.5,")).available_shares = 2
  ∧ ((ParticipantSession.init 1000 false).handle_message
        (pystr "type:buy,shares:2,price:10.5,")).num_trades = 1
  ∧ (((ParticipantSession.init 1000 false).handle_message
        (pystr "type:buy,shares:2,price:10.5,")).handle_message
          (pystr "type:sell,shares:2,price:11.5,")).balance
      = 1000 - 2 * mkRat 21 2 + 2 * mkRat 23 2
  ∧ (((ParticipantSession.init 1000 false).handle_message
        (pystr "type:buy,shares:2,price:10.5,")).handle_message
          (pystr "type:sell,shares:2,price:11.5,")).available_shares = 0
  ∧ (((ParticipantSession.init 1000 false).handle_message
        (pystr "type:buy,shares:2,price:10.5,")).handle_message
          (pystr "type:sell,shares:2,price:11.5,")).num_trades = 2 :=
  C2_buy_then_sell 1000 2 (mkRat 21 2) (mkRat 23 2) false _ _ (by decide) (by decide)

/-- C4: the claim says admitting a `(connection, participant_id)` pair whose
participant id is already on the roster never produces a roster containing
that id twice. `Session.add_client` performs no duplicate check — on a
below-capacity roster already holding id 7, admitting id 7 again yields a
roster on which id 7 occurs twice. -/
theorem C4_counterexample :
    (((Session.mk 1 (pystr "AAPL") 1000 2 60 false [(0, 7)]).add_client 1 7).1).clients.countP
        (fun c => c.2 == 7) = 2 := by decide

/-- C4 (amended): `Session.add_client` enforces only the capacity bound and
never checks for duplicates: admitting a pair whose participant id is
already present, while the roster is below capacity, appends it again, so
the multiplicity of that id in the roster grows by one (in particular the
id can appear twice). -/
theorem C4_amended_no_duplicate_check (s : Session) (w : Nat) (cid : Int)
    (hroom : (s.clients.length : Int) ≠ s.max_clients) :
    (s.add_client w cid).2 = true ∧
      ((s.add_client w cid).1).clients.countP (fun c => c.2 == cid)
        = s.clients.countP (fun c => c.2 == cid) + 1 := by
  unfold Session.add_client
  rw [if_neg hroom]
  simp [List.countP_append, List.countP_cons]

theorem C4_witness :
    ((Session.mk 1 (pystr "AAPL") 1000 2 60 false [(0, 7)]).add_client 1 7).2 = true ∧
      (((Session.mk 1 (pystr "AAPL") 1000 2 60 false [(0, 7)]).add_client 1 7).1).clients.countP
          (fun c => c.2 == 7)
        = (Session.mk 1 (pystr "AAPL") 1000 2 60 false [(0, 7)]).clients.countP
            (fun c => c.2 == 7) + 1 :=
  C4_amended_no_duplicate_check _ 1 7 (by decide)

/-- One admission preserves `max_clients`. -/
theorem Session.add_client_max (s : Session) (w : Nat) (cid : Int) :
    ((s.add_client w cid).1).max_clients = s.max_clients := by
  unfold Session.add_client
  split <;> rfl

/-- One admission preserves the roster-size bound. -/
theorem Session.add_client_length_le (s : Session) (w : Nat) (cid : Int)
    (h : (s.clients.length : Int) ≤ s.max_clients) :
    ((((s.add_client w cid).1).clients.length : Int) ≤ s.max_clients) := by
  unfold Session.add_client
  split
  · exact h
  · rename_i hne
    have hlt : (s.clients.length : Int) < s.max_clients := lt_of_le_of_ne h hne
    simp only [List.length_append, List.length_cons, List.length_nil]
    push_cast
    omega

/-- Any sequence of admissions preserves the roster-size bound. -/
theorem Session.applyAdmissions_length_le (adds : List (Nat × Int)) (s : Session)
    (h : (s.clients.length : Int) ≤ s.max_clients) :
    (((s.applyAdmissions adds).clients.length : Int) ≤ s.max_clients) := by
  induction adds generalizing s with
  | nil => exact h
  | cons a rest ih =>
      have h1 := Session.add_client_length_le s a.1 a.2 h
      have h2 := Session.add_client_max s a.1 a.2
      have h3 := ih ((s.add_client a.1 a.2).1) (by rw [h2]; exact h1)
      rw [h2] at h3
      simpa [Session.applyAdmissions] using h3

/-- C5: admitting to a session whose roster size equals its capacity returns
the failure result and leaves the session (in particular its roster)
unchanged; and starting from an empty roster, no sequence of admissions can
push the roster size beyond the configured (non-negative) capacity. -/
theorem C5_capacity_never_exceeded (s : Session) (w : Nat) (cid : Int)
    (adds : List (Nat × Int))
    (hfull : (s.clients.length : Int) = s.max_clients)
    (hcap : 0 ≤ s.max_clients) :
    s.add_client w cid = (s, false) ∧
      (((({ s with clients := [] } : Session).applyAdmissions adds).clients.length : Int)
        ≤ s.max_clients) := by
  constructor
  · unfold Session.add_client
    rw [if_pos hfull]
  · have h := Session.applyAdmissions_length_le adds { s with clients := [] }
      (by simpa using hcap)
    simpa using h

theorem C5_witness :
    (Session.mk 1 (pystr "AAPL") 1000 1 60 false [(0, 7)]).add_client 1 8
        = (Session.mk 1 (pystr "AAPL") 1000 1 60 false [(0, 7)], false) ∧
      (((({ Session.mk 1 (pystr "AAPL") 1000 1 60 false [(0, 7)] with
              clients := [] } : Session).applyAdmissions
            [(1, 8), (2, 9), (3, 10)]).clients.length : Int)
        ≤ (Session.mk 1 (pystr "AAPL") 1000 1 60 false [(0, 7)]).max_clients) :=
  C5_capacity_never_exceeded _ 1 8 [(1, 8), (2, 9), (3, 10)] (by decide) (by decide)

/-- C7: registering a session id that is not yet present appends exactly one
entry; registering any second session carrying the same id afterwards is a
no-op — the registry keeps exactly one entry for the id and it still maps
to the first registration, never the second. -/
theorem C7_add_session_idempotent (m : Registry) (s1 s2 : Session)
    (hid : s2.id = s1.id)
    (h0 : lookupSession m s1.id = none) :
    SessionsManager.add_session (SessionsManager.add_session m s1) s2
        = SessionsManager.add_session m s1
      ∧ countKey (SessionsManager.add_session m s1) s1.id = 1
      ∧ lookupSession (SessionsManager.add_session m s1) s1.id = some s1 := by
  have hfind : m.find? (fun p => p.1 == s1.id) = none := by
    have h0' := h0
    unfold lookupSession at h0'
    exact Option.map_eq_none'.mp h0'
  have hadd : SessionsManager.add_session m s1 = m ++ [(s1.id, s1)] := by
    unfold SessionsManager.add_session
    rw [h0]
  have hlook : lookupSession (m ++ [(s1.id, s1)]) s1.id = some s1 := by
    simp [lookupSession, List.find?_append, hfind]
  have hcount : countKey (m ++ [(s1.id, s1)]) s1.id = 1 := by
    have hzero : m.countP (fun p => p.1 == s1.id) = 0 := by
      rw [List.countP_eq_zero]
      intro a ha
      exact List.find?_eq_none.mp hfind a ha
    simp [countKey, List.countP_append, hzero]
  refine ⟨?_, ?_, ?_⟩
  · rw [hadd]
    unfold SessionsManager.add_session
    rw [hid, hlook]
  · rw [hadd]; exact hcount
  · rw [hadd]; exact hlook

theorem C7_witness :
    SessionsManager.add_session
        (SessionsManager.add_session [] (Session.mk 5 (pystr "AAPL") 1000 2 60 false []))
        (Session.mk 5 (pystr "TSLA") 500 3 30 true [])
        = SessionsManager.add_session [] (Session.mk 5 (pystr "AAPL") 1000 2 60 false [])
      ∧ countKey
          (SessionsManager.add_session [] (Session.mk 5 (pystr "AAPL") 1000 2 60 false []))
          (Session.mk 5 (pystr "AAPL") 1000 2 60 false []).id = 1
      ∧ lookupSession
          (SessionsManager.add_session [] (Session.mk 5 (pystr "AAPL") 1000 2 60 false []))
          (Session.mk 5 (pystr "AAPL") 1000 2 60 false []).id
          = some (Session.mk 5 (pystr "AAPL") 1000 2 60 false []) :=
  C7_add_session_idempotent [] (Session.mk 5 (pystr "AAPL") 1000 2 60 false [])
    (Session.mk 5 (pystr "TSLA") 500 3 30 true []) rfl rfl

/-- C6: the claim says that whenever `type:`, `shares:` and `price:` all
appear as fields, the parsed order does not depend on field order or on the
presence of additional `key:value` fields. It fails: keys are located by a
plain substring search, so an additional field `xtype:sell` captures the
`type:` lookup even though a genuine `type:buy` field follows — the two
messages below contain identical required fields, yet parse differently. -/
theorem C6_counterexample :
    Transaction.from_string (pystr "xtype:sell,type:buy,shares:2,price:10.5,")
      ≠ Transaction.from_string (pystr "type:buy,shares:2,price:10.5,") := by decide

/-- In `v ++ c :: post` with `c` absent from `v`, the first occurrence of
`c` is right after `v`. -/
theorem findSub_first_sep (v post : PyStr) (c : Char) (hc : c ∉ v) :
    findSub (v ++ c :: post) [c] = some v.length := by
  induction v with
  | nil => simp [findSub, startsWith]
  | cons a v' ih =>
      simp only [List.mem_cons, not_or] at hc
      have hac : (a == c) = false := beq_eq_false_iff_ne.mpr (Ne.symm hc.1)
      simp [findSub, startsWith, hac, ih hc.2]

/-- `strip` leaves a whitespace-free string unchanged. -/
theorem pyStrip_eq_self (v : PyStr) (hw : ∀ c ∈ v, isPySpace c = false) :
    pyStrip v = v := by
  have hdw : ∀ l : PyStr, (∀ c ∈ l, isPySpace c = false) →
      l.dropWhile isPySpace = l := by
    intro l hl
    cases l with
    | nil => rfl
    | cons a t => simp [List.dropWhile_cons, hl a (List.mem_cons_self a t)]
  unfold pyStrip
  rw [hdw v hw]
  rw [hdw v.reverse (by intro c hcmem; exact hw c (List.mem_reverse.mp hcmem))]
  exact List.reverse_reverse v

/-- If the first occurrence of `key:` in the message sits at index `i` and
the text after that colon is a comma-free, whitespace-free value followed by
a comma, the parser extracts exactly that value. -/
theorem DictParser.parseField_eq (key msg v post : PyStr) (i : Nat)
    (hf : findSub msg (key ++ [':']) = some i)
    (hd : msg.drop (i + key.length + 1) = v ++ ',' :: post)
    (hc : ',' ∉ v)
    (hw : ∀ c ∈ v, isPySpace c = false) :
    DictParser.parseField key msg = some v := by
  unfold DictParser.parseField
  rw [hf]
  have hfind := findSub_first_sep v post ',' hc
  simp only [hd, pyFind, hfind, pySliceTo]
  rw [if_pos (by positivity : (0 : Int) ≤ (v.length : Int))]
  rw [Int.toNat_natCast, List.take_left]
  rw [pyStrip_eq_self v hw]

/-- C6 (amended): the parsed order is insensitive to field order and to
additional fields *provided* each required fragment's first occurrence in
the message starts the genuine field and each value is comma-terminated
(and free of commas and whitespace): under those conditions the result is
determined by the three field values alone. Without the provisos the claim
fails (see the counterexample: an extra field whose key ends in `type`
hijacks the lookup; likewise a final field with no trailing comma loses its
last character). -/
theorem C6_amended_order_irrelevant
    (msg vt vs vp pt ps' pp : PyStr) (it is' ip : Nat)
    (hft : findSub msg (pystr "type" ++ [':']) = some it)
    (hdt : msg.drop (it + (pystr "type").length + 1) = vt ++ ',' :: pt)
    (hct : ',' ∉ vt) (hwt : ∀ c ∈ vt, isPySpace c = false)
    (hfs : findSub msg (pystr "shares" ++ [':']) = some is')
    (hds : msg.drop (is' + (pystr "shares").length + 1) = vs ++ ',' :: ps')
    (hcs : ',' ∉ vs) (hws : ∀ c ∈ vs, isPySpace c = false)
    (hfp : findSub msg (pystr "price" ++ [':']) = some ip)
    (hdp : msg.drop (ip + (pystr "price").length + 1) = vp ++ ',' :: pp)
    (hcp : ',' ∉ vp) (hwp : ∀ c ∈ vp, isPySpace c = false) :
    Transaction.from_string msg
      = (pyFloat vs).bind fun sh => (pyFloat vp).bind fun pr =>
          some ⟨vt, sh, pr⟩ := by
  have ht := DictParser.parseField_eq (pystr "type") msg vt pt it hft hdt hct hwt
  have hs := DictParser.parseField_eq (pystr "shares") msg vs ps' is' hfs hds hcs hws
  have hp := DictParser.parseField_eq (pystr "price") msg vp pp ip hfp hdp hcp hwp
  unfold Transaction.from_string
  rw [ht, hs, hp]
  rfl

theorem C6_witness :
    Transaction.from_string (pystr "price:10.5,shares:2,extra:9,type:buy,")
      = (pyFloat (pystr "2")).bind fun sh => (pyFloat (pystr "10.5")).bind fun pr =>
          some ⟨pystr "buy", sh, pr⟩ :=
  C6_amended_order_irrelevant (pystr "price:10.5,shares:2,extra:9,type:buy,")
    (pystr "buy") (pystr "2") (pystr "10.5")
    [] (pystr "extra:9,type:buy,") (pystr "shares:2,extra:9,type:buy,")
    28 11 0
    (by decide) (by decide) (by decide) (by decide)
    (by decide) (by decide) (by decide) (by decide)
    (by decide) (by decide) (by decide) (by decide)

end TradeTrail
